import Mathlib

/-!
Verification of the interview-prep backend's core subsystems against its
specification, by a shallow embedding of the relevant Python code
(`app/services/scraper.py`, `app/services/scheduler.py`,
`app/services/notification.py`) into Lean.

Conventions of the embedding:
* timestamps are natural numbers counting seconds; one calendar day is
  86400 seconds and the calendar day of a timestamp `t` is `t / 86400`;
* database rows become structures, tables become lists of rows, and a
  service method becomes a function from the old table state to the new one;
* Python exceptions become `Except` values; a `try/except` block that
  swallows an exception becomes a `match` discarding the `.error` case;
* outcomes of external effects (network fetches, Firebase initialization,
  commit success) are passed in as explicit parameters, since the claims
  quantify over all combinations of those outcomes.
-/

namespace InterviewPrep

/-! ## Scraper (`app/services/scraper.py`) -/

/-- The `ScrapedQuestion` dataclass of `scraper.py`. -/
structure ScrapedQuestion where
  question_text : String
  options : Option (List String) := none
  correct_answer : Option String := none
  source_url : Option String := none
  source_name : Option String := none
  company_name : Option String := none
  topic : Option String := none
  difficulty : Option String := none
deriving Repr, DecidableEq

/-- A Python exception escaping an adapter coroutine, as captured by
`asyncio.gather(..., return_exceptions=True)`. -/
inductive PyException where
  | exn (msg : String)
deriving Repr, DecidableEq

/-- Outcome of one adapter task: the list it returned, or the exception
it raised. -/
abbrev AdapterOutcome := Except PyException (List ScrapedQuestion)

/-- The result-merging loop of `WebScraper.scrape_all_sources`
(lines 310-317): `asyncio.gather` hands back one outcome per task in task
order; list results are concatenated with `extend`, exceptions are logged
and skipped. -/
def gather_results (results : List AdapterOutcome) : List ScrapedQuestion :=
  results.foldl
    (fun all_questions result =>
      match result with
      | .ok qs => all_questions ++ qs
      | .error _ => all_questions)
    []

/-- Embeds `WebScraper.scrape_all_sources` (lines 296-318): the task list is
TCYOnline, PrepInsta, IndiaBIX in that order, plus Reddit when `company`
is given; the adapters' outcomes are parameters (they depend on the
network). -/
def scrape_all_sources (company : Option String)
    (tcy prep bix reddit : AdapterOutcome) : List ScrapedQuestion :=
  let tasks := [tcy, prep, bix] ++
    (match company with
     | some _ => [reddit]
     | none => [])
  gather_results tasks

/-- The sequence an adapter outcome contributes to the orchestrator's
result: its list on success, nothing on an exception. -/
def contributed : AdapterOutcome → List ScrapedQuestion
  | .ok qs => qs
  | .error _ => []

/-! ## Extraction engine (`WebScraper._extract_questions_from_text`)

Text is represented as its character sequence (`List Char`), matching
the semantics of Python's `len` (number of characters) and `str.strip`. -/

/-- The `str.strip()` of a match: drop whitespace from both ends. -/
def strip (s : List Char) : List Char :=
  ((s.dropWhile Char.isWhitespace).reverse.dropWhile Char.isWhitespace).reverse

/-- One step of the match loop in `_extract_questions_from_text`
(lines 289-292): strip the match, keep it only when its length exceeds 10
and it is not already collected. -/
def extract_step (questions : List (List Char)) (m : List Char) :
    List (List Char) :=
  let question := strip m
  if 10 < question.length ∧ question ∉ questions then questions ++ [question]
  else questions

/-- Embeds `WebScraper._extract_questions_from_text` (lines 274-294), with the
regular-expression machinery abstracted away: `ms` stands for the
concatenation, over the five patterns in priority order, of the
`re.findall` match lists, which is the exact sequence the Python loop
iterates over.  The claims about this function hold for every such match
sequence, hence for every input document. -/
def extract_questions_from_text (ms : List (List Char)) : List (List Char) :=
  (ms.foldl extract_step []).take 5

theorem extract_foldl_nodup (ms : List (List Char)) :
    ∀ acc : List (List Char), acc.Nodup → (ms.foldl extract_step acc).Nodup := by
  induction ms with
  | nil => intro acc h; exact h
  | cons m ms ih =>
    intro acc h
    simp only [List.foldl_cons]
    apply ih
    simp only [extract_step]
    split
    · rename_i hcond
      simp [List.nodup_append, h, List.disjoint_singleton, hcond.2]
    · exact h

theorem extract_foldl_mem (ms : List (List Char)) :
    ∀ acc : List (List Char), ∀ q ∈ ms.foldl extract_step acc,
      q ∈ acc ∨ (10 < q.length ∧ ∃ m ∈ ms, q = strip m) := by
  induction ms with
  | nil => intro acc q hq; exact Or.inl hq
  | cons m ms ih =>
    intro acc q hq
    simp only [List.foldl_cons] at hq
    rcases ih (extract_step acc m) q hq with h | h
    · simp only [extract_step] at h
      split at h
      · rename_i hcond
        rcases List.mem_append.mp h with h' | h'
        · exact Or.inl h'
        · right
          refine ⟨?_, m, List.mem_cons_self m ms, ?_⟩
          · have : q = strip m := List.mem_singleton.mp h'
            exact this ▸ hcond.1
          · exact List.mem_singleton.mp h'
      · exact Or.inl h
    · exact Or.inr ⟨h.1, h.2.choose, List.mem_cons_of_mem m h.2.choose_spec.1,
        h.2.choose_spec.2⟩

/-- C1: for every topic and every combination of per-adapter outcomes,
`scrape_all_sources` never raises (it is a total function of the four
outcomes) and returns exactly the concatenation of the successful
adapters' result sequences in invocation order — TCYOnline, PrepInsta,
IndiaBIX, then Reddit when a company is given — with no cross-adapter
deduplication; when every adapter fails it returns the empty sequence. -/
theorem scrape_all_sources_isolates_failures (company : Option String)
    (tcy prep bix reddit : AdapterOutcome) :
    scrape_all_sources company tcy prep bix reddit =
      contributed tcy ++ contributed prep ++ contributed bix ++
        (match company with
         | some _ => contributed reddit
         | none => []) ∧
    (∀ e₁ e₂ e₃ e₄ : PyException,
      scrape_all_sources company (.error e₁) (.error e₂) (.error e₃) (.error e₄) = []) := by
  constructor
  · cases company <;> cases tcy <;> cases prep <;> cases bix <;> cases reddit <;>
      simp [scrape_all_sources, gather_results, contributed, List.append_assoc]
  · intro e₁ e₂ e₃ e₄
    cases company <;> simp [scrape_all_sources, gather_results]

/-- C6: for every input document (here: for every sequence of raw pattern
matches the document yields), `extract_questions_from_text` returns at
most 5 strings, no two returned strings are equal, and every returned
string is the trimmed form of some match and has length strictly greater
than 10 (so its trimmed length exceeds 10). -/
theorem extract_questions_bounded_nodup_long (ms : List (List Char)) :
    (extract_questions_from_text ms).length ≤ 5 ∧
    (extract_questions_from_text ms).Nodup ∧
    ∀ q ∈ extract_questions_from_text ms,
      10 < q.length ∧ ∃ m ∈ ms, q = strip m := by
  refine ⟨?_, ?_, ?_⟩
  · simp [extract_questions_from_text]
  · exact (List.take_sublist 5 _).nodup (extract_foldl_nodup ms [] List.nodup_nil)
  · intro q hq
    have hq' : q ∈ ms.foldl extract_step [] :=
      List.take_subset 5 _ hq
    rcases extract_foldl_mem ms [] q hq' with h | h
    · exact absurd h (List.not_mem_nil q)
    · exact h

/-! ## Scheduler data model (`app/models`) -/

/-- The fields of the `User` model consulted by the scheduler and the
notification dispatcher. -/
structure User where
  id : Nat
  is_active : Bool
  notification_enabled : Bool
deriving Repr, DecidableEq

/-- The `UserTopic` association model (`app/models/topic.py`). -/
structure UserTopic where
  user_id : Nat
  topic_id : Nat
  is_active : Bool
  priority : Int
deriving Repr, DecidableEq

/-- The `DailyQuizSchedule` model (`app/models/quiz.py`). -/
structure DailyQuizSchedule where
  user_id : Nat
  scheduled_date : Nat
  topics : List Nat
  questions_per_topic : Nat
  is_completed : Bool
deriving Repr, DecidableEq

/-- The tables touched by `SchedulerService._create_daily_quiz_schedules`. -/
structure SchedulerDB where
  users : List User
  user_topics : List UserTopic
  quiz_schedules : List DailyQuizSchedule
deriving Repr, DecidableEq

/-- Midnight of the calendar day containing timestamp `t`; plays the role
of `datetime.now().date()` against which datetimes are compared. -/
def dayStart (t : Nat) : Nat := t / 86400 * 86400

/-- A persistence-layer exception inside the scheduler's job body:
SQLAlchemy's `MultipleResultsFound` raised by `scalar_one_or_none`, or a
failure of the batch `commit`. -/
inductive PersistError where
  | multipleResults
  | commitFailed
deriving Repr, DecidableEq

/-! ## Quiz-schedule generator (`SchedulerService._create_daily_quiz_schedules`) -/

/-- The `ORDER BY priority DESC` of the user-topics query, realized as an
insertion sort on the descending-priority order. -/
def insertDesc (ut : UserTopic) : List UserTopic → List UserTopic
  | [] => [ut]
  | hd :: rest =>
    if hd.priority ≤ ut.priority then ut :: hd :: rest
    else hd :: insertDesc ut rest

def sortByPriorityDesc : List UserTopic → List UserTopic
  | [] => []
  | hd :: rest => insertDesc hd (sortByPriorityDesc rest)

/-- Holds when `a` comes no later than `b` in descending-priority order. -/
def priorityDescOrder (a b : UserTopic) : Prop := b.priority ≤ a.priority

theorem insertDesc_perm (ut : UserTopic) (l : List UserTopic) :
    List.Perm (insertDesc ut l) (ut :: l) := by
  induction l with
  | nil => exact List.Perm.refl _
  | cons hd rest ih =>
    unfold insertDesc
    split
    · exact List.Perm.refl _
    · exact (List.Perm.cons hd ih).trans (List.Perm.swap ut hd rest)

theorem sortByPriorityDesc_perm (l : List UserTopic) :
    List.Perm (sortByPriorityDesc l) l := by
  induction l with
  | nil => exact List.Perm.refl _
  | cons hd rest ih =>
    exact (insertDesc_perm hd (sortByPriorityDesc rest)).trans (List.Perm.cons hd ih)

theorem insertDesc_sorted (ut : UserTopic) (l : List UserTopic)
    (h : List.Sorted priorityDescOrder l) :
    List.Sorted priorityDescOrder (insertDesc ut l) := by
  induction l with
  | nil => simp [insertDesc, priorityDescOrder]
  | cons hd rest ih =>
    rw [List.sorted_cons] at h
    unfold insertDesc
    split
    · rename_i hle
      rw [List.sorted_cons]
      refine ⟨?_, List.sorted_cons.mpr h⟩
      intro b hb
      rcases List.mem_cons.mp hb with rfl | hb'
      · exact hle
      · exact le_trans (h.1 b hb') hle
    · rename_i hgt
      rw [List.sorted_cons]
      refine ⟨?_, ih h.2⟩
      intro b hb
      have hb2 : b ∈ ut :: rest := (insertDesc_perm ut rest).mem_iff.mp hb
      rcases List.mem_cons.mp hb2 with rfl | hb'
      · exact le_of_lt (not_le.mp hgt)
      · exact h.1 b hb'

theorem sortByPriorityDesc_sorted (l : List UserTopic) :
    List.Sorted priorityDescOrder (sortByPriorityDesc l) := by
  induction l with
  | nil => simp [sortByPriorityDesc]
  | cons hd rest ih => exact insertDesc_sorted hd _ ih

/-- The user-topics query of lines 96-108: active associations of the
user, ordered by descending priority. -/
def active_user_topics (uid : Nat) (uts : List UserTopic) : List UserTopic :=
  sortByPriorityDesc (uts.filter (fun ut => ut.user_id == uid && ut.is_active))

/-- Row predicate of the existing-schedule query (lines 82-90):
`user_id == uid AND scheduled_date >= today AND scheduled_date < tomorrow`,
with `today`/`tomorrow` the bounds of the calendar day starting at `td`. -/
def todayPred (td uid : Nat) (s : DailyQuizSchedule) : Bool :=
  s.user_id == uid && decide (td ≤ s.scheduled_date) &&
    decide (s.scheduled_date < td + 86400)

/-- The rows the existing-schedule query returns. -/
def todays_schedules (td uid : Nat) (l : List DailyQuizSchedule) :
    List DailyQuizSchedule :=
  l.filter (todayPred td uid)

/-- The `DailyQuizSchedule` row built at lines 117-122:
`scheduled_date = datetime.now()`, the top-5 active topic ids by
descending priority, `questions_per_topic = 1`. -/
def new_entry (now : Nat) (uts : List UserTopic) (uid : Nat) : DailyQuizSchedule :=
  { user_id := uid
    scheduled_date := now
    topics := ((active_user_topics uid uts).take 5).map (·.topic_id)
    questions_per_topic := 1
    is_completed := false }

/-- One iteration of the per-user loop (lines 80-124).  `scalar_one_or_none`
raises `MultipleResultsFound` when the query returns two or more rows;
one row means the user is skipped; with no row and no active topic the
user is also skipped; otherwise the new entry is staged with `db.add`
(visible to later queries of the same session through autoflush). -/
def schedule_user (now : Nat) (uts : List UserTopic) (u : User)
    (schedules : List DailyQuizSchedule) :
    Except PersistError (List DailyQuizSchedule) :=
  if 2 ≤ (todays_schedules (dayStart now) u.id schedules).length then
    .error .multipleResults
  else if (todays_schedules (dayStart now) u.id schedules).length = 1 then
    .ok schedules
  else if (active_user_topics u.id uts).isEmpty then
    .ok schedules
  else
    .ok (schedules ++ [new_entry now uts u.id])

/-- The whole per-user loop; an exception raised for one user aborts the
remaining users (it propagates to the `except` of lines 129-131). -/
def schedule_users (now : Nat) (uts : List UserTopic) :
    List User → List DailyQuizSchedule →
    Except PersistError (List DailyQuizSchedule)
  | [], schedules => .ok schedules
  | u :: rest, schedules =>
    match schedule_user now uts u schedules with
    | .error e => .error e
    | .ok schedules' => schedule_users now uts rest schedules'

/-- The `try` block of `_create_daily_quiz_schedules` (lines 70-127): loop
over the active users, then `db.commit()`; a failing commit raises. -/
def create_daily_quiz_schedules_body (now : Nat) (commitOk : Bool)
    (db : SchedulerDB) : Except PersistError SchedulerDB :=
  match schedule_users now db.user_topics (db.users.filter (·.is_active))
      db.quiz_schedules with
  | .error e => .error e
  | .ok schedules =>
    if commitOk then .ok { db with quiz_schedules := schedules }
    else .error .commitFailed

/-- Embeds `_create_daily_quiz_schedules` (lines 68-131): the `except Exception`
clause catches every fault from the body, logs it and rolls the session
back; the method returns normally in both cases and re-raises nothing. -/
def create_daily_quiz_schedules (now : Nat) (commitOk : Bool)
    (db : SchedulerDB) : Except PersistError SchedulerDB :=
  match create_daily_quiz_schedules_body now commitOk db with
  | .ok db' => .ok db'
  | .error _ => .ok db

/-- One iteration of the `_daily_quiz_scheduler` loop (lines 40-52): run
the job body; when it returns, sleep the 1-hour period; when it raises,
sleep the 5-minute backoff instead.  Yields the new state and the sleep
in seconds. -/
def daily_quiz_scheduler_iteration (now : Nat) (commitOk : Bool)
    (db : SchedulerDB) : SchedulerDB × Nat :=
  match create_daily_quiz_schedules now commitOk db with
  | .ok db' => (db', 3600)
  | .error _ => (db, 300)

theorem todays_append (td uid : Nat) (l : List DailyQuizSchedule)
    (e : DailyQuizSchedule) :
    todays_schedules td uid (l ++ [e]) =
      todays_schedules td uid l ++ (if todayPred td uid e then [e] else []) := by
  cases h : todayPred td uid e <;> simp [todays_schedules, List.filter_append, h]

theorem todayPred_new_entry_self (now : Nat) (uts : List UserTopic) (uid : Nat) :
    todayPred (dayStart now) uid (new_entry now uts uid) = true := by
  simp only [todayPred, new_entry, dayStart]
  simp only [beq_self_eq_true, Bool.true_and, Bool.and_eq_true, decide_eq_true_eq]
  omega

theorem todayPred_new_entry_ne (td now : Nat) (uts : List UserTopic)
    {uid uid' : Nat} (h : uid ≠ uid') :
    todayPred td uid (new_entry now uts uid') = false := by
  simp [todayPred, new_entry, Ne.symm h]

theorem schedule_user_cases {now : Nat} {uts : List UserTopic} {u : User}
    {schedules schedules' : List DailyQuizSchedule}
    (h : schedule_user now uts u schedules = .ok schedules') :
    ((todays_schedules (dayStart now) u.id schedules).length = 1 ∧
      schedules' = schedules) ∨
    (todays_schedules (dayStart now) u.id schedules = [] ∧
      active_user_topics u.id uts = [] ∧ schedules' = schedules) ∨
    (todays_schedules (dayStart now) u.id schedules = [] ∧
      active_user_topics u.id uts ≠ [] ∧
      schedules' = schedules ++ [new_entry now uts u.id]) := by
  unfold schedule_user at h
  split_ifs at h with h1 h2 h3
  · exact Or.inl ⟨h2, ((Except.ok.injEq _ _).mp h).symm⟩
  · refine Or.inr (Or.inl ⟨?_, List.isEmpty_iff.mp h3,
      ((Except.ok.injEq _ _).mp h).symm⟩)
    have : (todays_schedules (dayStart now) u.id schedules).length = 0 := by omega
    exact List.length_eq_zero.mp this
  · refine Or.inr (Or.inr ⟨?_, ?_, ((Except.ok.injEq _ _).mp h).symm⟩)
    · have : (todays_schedules (dayStart now) u.id schedules).length = 0 := by omega
      exact List.length_eq_zero.mp this
    · intro hnil
      exact h3 (List.isEmpty_iff.mpr hnil)

theorem schedule_user_ok {now : Nat} {uts : List UserTopic} {u : User}
    {schedules : List DailyQuizSchedule}
    (hinv : (todays_schedules (dayStart now) u.id schedules).length ≤ 1) :
    ∃ schedules', schedule_user now uts u schedules = .ok schedules' := by
  unfold schedule_user
  split_ifs with h1 h2 h3
  · omega
  · exact ⟨schedules, rfl⟩
  · exact ⟨schedules, rfl⟩
  · exact ⟨_, rfl⟩

theorem schedule_user_preserves_inv {now : Nat} {uts : List UserTopic}
    {u : User} {schedules schedules' : List DailyQuizSchedule}
    (h : schedule_user now uts u schedules = .ok schedules')
    (hinv : ∀ uid, (todays_schedules (dayStart now) uid schedules).length ≤ 1) :
    ∀ uid, (todays_schedules (dayStart now) uid schedules').length ≤ 1 := by
  intro uid
  rcases schedule_user_cases h with ⟨_, rfl⟩ | ⟨_, _, rfl⟩ | ⟨h0, _, rfl⟩
  · exact hinv uid
  · exact hinv uid
  · rw [todays_append]
    by_cases huid : uid = u.id
    · subst huid
      rw [h0]
      simp [todayPred_new_entry_self]
    · rw [todayPred_new_entry_ne (dayStart now) now uts huid]
      simpa using hinv uid

/-- After a full pass of the per-user loop, each user's set of rows for
today is either untouched or has gone from empty to exactly the one newly
staged entry. -/
theorem schedule_users_today (now : Nat) (uts : List UserTopic) :
    ∀ (users : List User) (schedules schedules' : List DailyQuizSchedule),
      schedule_users now uts users schedules = .ok schedules' →
      ∀ uid,
        todays_schedules (dayStart now) uid schedules' =
          todays_schedules (dayStart now) uid schedules ∨
        (todays_schedules (dayStart now) uid schedules = [] ∧
          active_user_topics uid uts ≠ [] ∧
          todays_schedules (dayStart now) uid schedules' = [new_entry now uts uid]) := by
  intro users
  induction users with
  | nil =>
    intro schedules schedules' h uid
    simp only [schedule_users] at h
    cases h
    exact Or.inl rfl
  | cons u rest ih =>
    intro schedules schedules' h uid
    simp only [schedule_users] at h
    cases hsu : schedule_user now uts u schedules with
    | error e => rw [hsu] at h; exact Except.noConfusion h
    | ok s1 =>
      rw [hsu] at h
      rcases schedule_user_cases hsu with ⟨_, rfl⟩ | ⟨_, _, rfl⟩ | ⟨h0, hne, rfl⟩
      · exact ih _ _ h uid
      · exact ih _ _ h uid
      · rcases ih _ _ h uid with heq | ⟨hnil, hne', bone⟩
        · by_cases huid : uid = u.id
          · subst huid
            refine Or.inr ⟨h0, hne, ?_⟩
            rw [heq, todays_append, h0, todayPred_new_entry_self]
            simp
          · refine Or.inl ?_
            rw [heq, todays_append, todayPred_new_entry_ne (dayStart now) now uts huid]
            simp
        · by_cases huid : uid = u.id
          · subst huid
            rw [todays_append, h0, todayPred_new_entry_self] at hnil
            simp at hnil
          · rw [todays_append, todayPred_new_entry_ne (dayStart now) now uts huid] at hnil
            simp at hnil
            exact Or.inr ⟨hnil, hne', bone⟩

/-- The per-user loop raises no exception when no user has two existing
rows for today. -/
theorem schedule_users_ok (now : Nat) (uts : List UserTopic) :
    ∀ (users : List User) (schedules : List DailyQuizSchedule),
      (∀ uid, (todays_schedules (dayStart now) uid schedules).length ≤ 1) →
      ∃ schedules', schedule_users now uts users schedules = .ok schedules' := by
  intro users
  induction users with
  | nil => intro schedules _; exact ⟨schedules, rfl⟩
  | cons u rest ih =>
    intro schedules hinv
    rcases schedule_user_ok (hinv u.id) with ⟨s1, hs1⟩
    rcases ih s1 (schedule_user_preserves_inv hs1 hinv) with ⟨schedules', h'⟩
    refine ⟨schedules', ?_⟩
    simp only [schedule_users]
    rw [hs1]
    exact h'

/-- A listed user with at least one active topic ends the pass with at
least one row for today. -/
theorem schedule_users_creates (now : Nat) (uts : List UserTopic) :
    ∀ (users : List User) (schedules schedules' : List DailyQuizSchedule) (u : User),
      (∀ uid, (todays_schedules (dayStart now) uid schedules).length ≤ 1) →
      u ∈ users → active_user_topics u.id uts ≠ [] →
      schedule_users now uts users schedules = .ok schedules' →
      1 ≤ (todays_schedules (dayStart now) u.id schedules').length := by
  intro users
  induction users with
  | nil => intro _ _ _ _ hmem; simp at hmem
  | cons u' rest ih =>
    intro schedules schedules' u hinv hmem htop h
    simp only [schedule_users] at h
    cases hsu : schedule_user now uts u' schedules with
    | error e => rw [hsu] at h; exact Except.noConfusion h
    | ok s1 =>
      rw [hsu] at h
      have hinv1 := schedule_user_preserves_inv hsu hinv
      rcases List.mem_cons.mp hmem with rfl | hmem'
      · have h1 : 1 ≤ (todays_schedules (dayStart now) u.id s1).length := by
          rcases schedule_user_cases hsu with ⟨hl, rfl⟩ | ⟨_, htop', _⟩ | ⟨h0, _, rfl⟩
          · omega
          · exact absurd htop' htop
          · rw [todays_append, h0, todayPred_new_entry_self]
            simp
        rcases schedule_users_today now uts rest s1 schedules' h u.id with heq | ⟨_, _, hone⟩
        · rw [heq]; exact h1
        · rw [hone]; simp
      · exact ih s1 schedules' u hinv1 hmem' htop h

/-- A one-user store whose commit is about to fail: one active user with
one active topic, so the job body stages a row and then hits the failing
batch commit. -/
def commitFailDb : SchedulerDB :=
  { users := [{ id := 1, is_active := true, notification_enabled := true }]
    user_topics := [{ user_id := 1, topic_id := 7, is_active := true, priority := 3 }]
    quiz_schedules := [] }

/-- C2 counterexample: at this concrete input the job body does hit a
batch-commit persistence fault, yet the loop iteration sleeps the normal
3600 seconds, not the 300-second backoff the claim asserts — the
`except Exception` clause inside `_create_daily_quiz_schedules` swallows
the fault before it can reach `_daily_quiz_scheduler`. -/
theorem commit_failure_backoff_counterexample :
    create_daily_quiz_schedules_body 1000 false commitFailDb =
      .error .commitFailed ∧
    daily_quiz_scheduler_iteration 1000 false commitFailDb = (commitFailDb, 3600) ∧
    (daily_quiz_scheduler_iteration 1000 false commitFailDb).2 ≠ 300 :=
  ⟨rfl, rfl, by decide⟩

/-- C2 amended: a batch-commit persistence fault is caught inside
`_create_daily_quiz_schedules` itself, which logs it and rolls the batch
back; nothing propagates to the ScheduleLoop, so the iteration sleeps the
normal 1-hour period (the 5-minute backoff is reserved for faults raised
outside that handler), and on a failed commit the store is left as it
was. -/
theorem commit_failure_swallowed (now : Nat) (commitOk : Bool) (db : SchedulerDB) :
    (daily_quiz_scheduler_iteration now commitOk db).2 = 3600 ∧
    (commitOk = false →
      daily_quiz_scheduler_iteration now commitOk db = (db, 3600)) := by
  cases hb : create_daily_quiz_schedules_body now commitOk db with
  | ok db' =>
    refine ⟨?_, ?_⟩
    · simp [daily_quiz_scheduler_iteration, create_daily_quiz_schedules, hb]
    · intro hc
      subst hc
      exfalso
      unfold create_daily_quiz_schedules_body at hb
      cases hsu : schedule_users now db.user_topics
          (db.users.filter (·.is_active)) db.quiz_schedules with
      | error e => rw [hsu] at hb; exact Except.noConfusion hb
      | ok s => rw [hsu] at hb; simp at hb
  | error e =>
    refine ⟨?_, fun _ => ?_⟩ <;>
      simp [daily_quiz_scheduler_iteration, create_daily_quiz_schedules, hb]

theorem commit_failure_swallowed_witness :
    (daily_quiz_scheduler_iteration 1000 false commitFailDb).2 = 3600 ∧
    daily_quiz_scheduler_iteration 1000 false commitFailDb = (commitFailDb, 3600) :=
  ⟨(commit_failure_swallowed 1000 false commitFailDb).1,
   (commit_failure_swallowed 1000 false commitFailDb).2 rfl⟩

/-- An active user with no topic associations at all. -/
def zeroTopicsDb : SchedulerDB :=
  { users := [{ id := 1, is_active := true, notification_enabled := true }]
    user_topics := []
    quiz_schedules := [] }

/-- C5 counterexample: user 1 is active, yet a generator run returns the
store unchanged — so the second run is the very same call — and after the
two runs the user has zero entries for today, not the exactly one the
claim asserts for every active user: a user without active topics is
skipped. -/
theorem idempotence_counterexample :
    ({ id := 1, is_active := true, notification_enabled := true } : User)
        ∈ zeroTopicsDb.users ∧
    create_daily_quiz_schedules 0 true zeroTopicsDb = .ok zeroTopicsDb ∧
    (todays_schedules (dayStart 0) 1 zeroTopicsDb.quiz_schedules).length ≠ 1 :=
  ⟨by decide, rfl, by decide⟩

/-- C5 amended: for every active user with at least one active topic
association and no entry yet for today, in a store holding at most one
entry per (user, day), two successive generator runs on the same calendar
day (both commits succeeding) leave exactly one entry for that user and
today — the one the first run created — and the at-most-one-per-(user, day)
invariant holds afterwards. -/
theorem ensure_today_schedules_idempotent
    (now₁ now₂ : Nat) (db : SchedulerDB) (u : User)
    (hday : now₁ / 86400 = now₂ / 86400)
    (hu : u ∈ db.users) (hact : u.is_active = true)
    (htop : active_user_topics u.id db.user_topics ≠ [])
    (hinv : ∀ uid, (todays_schedules (dayStart now₁) uid db.quiz_schedules).length ≤ 1)
    (h0 : todays_schedules (dayStart now₁) u.id db.quiz_schedules = []) :
    ∃ s₁ s₂ : List DailyQuizSchedule,
      create_daily_quiz_schedules now₁ true db =
        .ok { db with quiz_schedules := s₁ } ∧
      create_daily_quiz_schedules now₂ true { db with quiz_schedules := s₁ } =
        .ok { db with quiz_schedules := s₂ } ∧
      todays_schedules (dayStart now₂) u.id s₂ =
        [new_entry now₁ db.user_topics u.id] ∧
      (∀ uid, (todays_schedules (dayStart now₂) uid s₂).length ≤ 1) := by
  have hds : dayStart now₁ = dayStart now₂ := by
    unfold dayStart; rw [hday]
  have hmem : u ∈ db.users.filter (·.is_active) := List.mem_filter.mpr ⟨hu, hact⟩
  obtain ⟨s₁, hs₁⟩ := schedule_users_ok now₁ db.user_topics
    (db.users.filter (·.is_active)) db.quiz_schedules hinv
  have hinv1 : ∀ uid, (todays_schedules (dayStart now₁) uid s₁).length ≤ 1 := by
    intro uid
    rcases schedule_users_today now₁ db.user_topics _ _ _ hs₁ uid with heq | ⟨_, _, hone⟩
    · rw [heq]; exact hinv uid
    · rw [hone]; simp
  have hcre : 1 ≤ (todays_schedules (dayStart now₁) u.id s₁).length :=
    schedule_users_creates now₁ db.user_topics _ _ _ u hinv hmem htop hs₁
  have hu1 : todays_schedules (dayStart now₁) u.id s₁ =
      [new_entry now₁ db.user_topics u.id] := by
    rcases schedule_users_today now₁ db.user_topics _ _ _ hs₁ u.id with heq | ⟨_, _, hone⟩
    · rw [heq, h0] at hcre; simp at hcre
    · exact hone
  have hinv1' : ∀ uid, (todays_schedules (dayStart now₂) uid s₁).length ≤ 1 := by
    rw [← hds]; exact hinv1
  obtain ⟨s₂, hs₂⟩ := schedule_users_ok now₂ db.user_topics
    (db.users.filter (·.is_active)) s₁ hinv1'
  have hu2 : todays_schedules (dayStart now₂) u.id s₂ =
      [new_entry now₁ db.user_topics u.id] := by
    rcases schedule_users_today now₂ db.user_topics _ _ _ hs₂ u.id with heq | ⟨hnil, _, _⟩
    · rw [heq, ← hds, hu1]
    · rw [← hds, hu1] at hnil
      exact absurd hnil (by simp)
  have hinv2 : ∀ uid, (todays_schedules (dayStart now₂) uid s₂).length ≤ 1 := by
    intro uid
    rcases schedule_users_today now₂ db.user_topics _ _ _ hs₂ uid with heq | ⟨_, _, hone⟩
    · rw [heq]; exact hinv1' uid
    · rw [hone]; simp
  refine ⟨s₁, s₂, ?_, ?_, hu2, hinv2⟩
  · unfold create_daily_quiz_schedules create_daily_quiz_schedules_body
    rw [hs₁]
    rfl
  · unfold create_daily_quiz_schedules create_daily_quiz_schedules_body
    rw [show ({ db with quiz_schedules := s₁ } : SchedulerDB).user_topics
        = db.user_topics from rfl,
      show ({ db with quiz_schedules := s₁ } : SchedulerDB).users = db.users from rfl,
      show ({ db with quiz_schedules := s₁ } : SchedulerDB).quiz_schedules = s₁ from rfl,
      hs₂]
    rfl

/-- The scenario store of the spec: one active user whose three active
topics carry priorities 5, 3 and 1 (listed unsorted). -/
def threeTopicsDb : SchedulerDB :=
  { users := [{ id := 1, is_active := true, notification_enabled := true }]
    user_topics :=
      [{ user_id := 1, topic_id := 101, is_active := true, priority := 1 },
       { user_id := 1, topic_id := 105, is_active := true, priority := 5 },
       { user_id := 1, topic_id := 103, is_active := true, priority := 3 }]
    quiz_schedules := [] }

theorem ensure_today_schedules_idempotent_witness :
    ∃ s₁ s₂ : List DailyQuizSchedule,
      create_daily_quiz_schedules 86400 true threeTopicsDb =
        .ok { threeTopicsDb with quiz_schedules := s₁ } ∧
      create_daily_quiz_schedules 90000 true { threeTopicsDb with quiz_schedules := s₁ } =
        .ok { threeTopicsDb with quiz_schedules := s₂ } ∧
      todays_schedules (dayStart 90000) 1 s₂ =
        [new_entry 86400 threeTopicsDb.user_topics 1] ∧
      (∀ uid, (todays_schedules (dayStart 90000) uid s₂).length ≤ 1) :=
  ensure_today_schedules_idempotent 86400 90000 threeTopicsDb
    { id := 1, is_active := true, notification_enabled := true }
    (by decide) (by decide) rfl (by decide)
    (fun _ => by simp [todays_schedules, threeTopicsDb]) rfl

/-- C8: one run of the generator (commit succeeding, store holding at most
one entry per user and day) gives every active user without an entry for
today and with at least one active topic association exactly one new
entry, whose topic list is the user's active topic ids ordered by
descending priority and truncated to at most five, with
`questions_per_topic = 1`; an active user with zero active topics is
skipped — no entry is created for them and the run raises no error. -/
theorem create_schedules_topic_selection
    (now : Nat) (db : SchedulerDB) (u : User)
    (hu : u ∈ db.users) (hact : u.is_active = true)
    (hinv : ∀ uid, (todays_schedules (dayStart now) uid db.quiz_schedules).length ≤ 1)
    (h0 : todays_schedules (dayStart now) u.id db.quiz_schedules = []) :
    ∃ s₁ : List DailyQuizSchedule,
      create_daily_quiz_schedules_body now true db =
        .ok { db with quiz_schedules := s₁ } ∧
      (active_user_topics u.id db.user_topics ≠ [] →
        todays_schedules (dayStart now) u.id s₁ =
          [new_entry now db.user_topics u.id]) ∧
      (active_user_topics u.id db.user_topics = [] →
        todays_schedules (dayStart now) u.id s₁ = []) ∧
      (new_entry now db.user_topics u.id).questions_per_topic = 1 ∧
      (new_entry now db.user_topics u.id).topics =
        ((active_user_topics u.id db.user_topics).take 5).map (·.topic_id) ∧
      (new_entry now db.user_topics u.id).topics.length ≤ 5 ∧
      List.Perm (active_user_topics u.id db.user_topics)
        (db.user_topics.filter (fun ut => ut.user_id == u.id && ut.is_active)) ∧
      List.Sorted priorityDescOrder (active_user_topics u.id db.user_topics) := by
  have hmem : u ∈ db.users.filter (·.is_active) := List.mem_filter.mpr ⟨hu, hact⟩
  obtain ⟨s₁, hs₁⟩ := schedule_users_ok now db.user_topics
    (db.users.filter (·.is_active)) db.quiz_schedules hinv
  refine ⟨s₁, ?_, ?_, ?_, rfl, rfl, ?_, ?_, ?_⟩
  · unfold create_daily_quiz_schedules_body
    rw [hs₁]
    rfl
  · intro htop
    have hcre : 1 ≤ (todays_schedules (dayStart now) u.id s₁).length :=
      schedule_users_creates now db.user_topics _ _ _ u hinv hmem htop hs₁
    rcases schedule_users_today now db.user_topics _ _ _ hs₁ u.id with heq | ⟨_, _, hone⟩
    · rw [heq, h0] at hcre; simp at hcre
    · exact hone
  · intro htop
    rcases schedule_users_today now db.user_topics _ _ _ hs₁ u.id with heq | ⟨_, hne, _⟩
    · rw [heq, h0]
    · exact absurd htop hne
  · simp only [new_entry, List.length_map]
    exact le_trans (List.length_take_le 5 _) (le_refl 5)
  · exact sortByPriorityDesc_perm _
  · exact sortByPriorityDesc_sorted _

theorem create_schedules_topic_selection_witness :
    (∃ s₁ : List DailyQuizSchedule,
      create_daily_quiz_schedules_body 86400 true threeTopicsDb =
        .ok { threeTopicsDb with quiz_schedules := s₁ } ∧
      (active_user_topics 1 threeTopicsDb.user_topics ≠ [] →
        todays_schedules (dayStart 86400) 1 s₁ =
          [new_entry 86400 threeTopicsDb.user_topics 1]) ∧
      (active_user_topics 1 threeTopicsDb.user_topics = [] →
        todays_schedules (dayStart 86400) 1 s₁ = []) ∧
      (new_entry 86400 threeTopicsDb.user_topics 1).questions_per_topic = 1 ∧
      (new_entry 86400 threeTopicsDb.user_topics 1).topics =
        ((active_user_topics 1 threeTopicsDb.user_topics).take 5).map (·.topic_id) ∧
      (new_entry 86400 threeTopicsDb.user_topics 1).topics.length ≤ 5 ∧
      List.Perm (active_user_topics 1 threeTopicsDb.user_topics)
        (threeTopicsDb.user_topics.filter (fun ut => ut.user_id == 1 && ut.is_active)) ∧
      List.Sorted priorityDescOrder (active_user_topics 1 threeTopicsDb.user_topics)) ∧
    (new_entry 86400 threeTopicsDb.user_topics 1).topics = [105, 103, 101] :=
  ⟨create_schedules_topic_selection 86400 threeTopicsDb
    { id := 1, is_active := true, notification_enabled := true }
    (by decide) (by decide)
    (fun _ => by simp [todays_schedules, threeTopicsDb]) rfl,
   rfl⟩

/-! ## Notification dispatcher (`app/services/notification.py`) -/

/-- The `NotificationSchedule` model (`app/models/notification.py`). -/
structure NotificationSchedule where
  id : Nat
  user_id : Nat
  scheduled_time : Nat
  frequency : String
  is_active : Bool
  last_sent : Option Nat
  next_send : Option Nat
  title_template : String
  message_template : String
deriving Repr, DecidableEq

/-- The tables touched by the dispatcher. -/
structure NotificationDB where
  notification_schedules : List NotificationSchedule
  users : List User
  daily_quiz_schedules : List DailyQuizSchedule
deriving Repr, DecidableEq

/-- The join condition and `WHERE` clause of the due-schedules query
(lines 209-220): active schedule, `next_send <= now` (a SQL `NULL`
`next_send` satisfies no comparison), user enabled and active. -/
def duePredicate (now : Nat) (s : NotificationSchedule) (u : User) : Bool :=
  u.id == s.user_id && s.is_active &&
    (match s.next_send with
     | some t => decide (t ≤ now)
     | none => false) &&
    u.notification_enabled && u.is_active

/-- The (schedule, user) rows the due-schedules query returns. -/
def due_pairs (now : Nat) (db : NotificationDB) :
    List (NotificationSchedule × User) :=
  db.notification_schedules.flatMap (fun s =>
    (db.users.filter (fun u => duePredicate now s u)).map (fun u => (s, u)))

/-- The rows of the completed-quiz query (lines 226-235):
`user_id == uid AND scheduled_date >= today AND is_completed` — note there
is no upper date bound in the source. -/
def completed_today (td uid : Nat) (qs : List DailyQuizSchedule) :
    List DailyQuizSchedule :=
  qs.filter (fun q =>
    q.user_id == uid && decide (td ≤ q.scheduled_date) && q.is_completed)

/-- Embeds `NotificationService.get_pending_notifications` (lines 203-252): the
due pairs whose user has not completed today's quiz.  The per-user
completed check uses `scalar_one_or_none`, which raises when a user has
two or more completed rows; the surrounding `except` then returns `[]`
for the whole call. -/
def get_pending_notifications (now : Nat) (db : NotificationDB) :
    List (NotificationSchedule × User) :=
  if (due_pairs now db).any (fun p =>
      2 ≤ (completed_today (dayStart now) p.2.id db.daily_quiz_schedules).length)
  then []
  else (due_pairs now db).filter (fun p =>
    (completed_today (dayStart now) p.2.id db.daily_quiz_schedules).isEmpty)

/-- Embeds `NotificationService.send_notification` (lines 47-124), with the
persistence of the `Notification` record reduced to its commit outcome
`dbOk` (an exception there is caught by the outer `except`, which returns
`False`).  Result: (returned success flag, whether an FCM delivery was
attempted).  With no Firebase app the method returns `False` at once;
with a token it attempts FCM and reports that outcome; with no token it
skips the FCM block entirely and returns `True`. -/
def send_notification (firebaseInit : Bool) (fcm_token : Option String)
    (dbOk fcmSendOk : Bool) : Bool × Bool :=
  if !firebaseInit then (false, false)
  else if !dbOk then (false, false)
  else
    match fcm_token with
    | some _ => if fcmSendOk then (true, true) else (false, true)
    | none => (true, false)

/-- The `next_send` recomputation of lines 274-280: always from the fixed
`scheduled_time`, by frequency; any other frequency string leaves
`next_send` untouched. -/
def recompute_next_send (s : NotificationSchedule) : Option Nat :=
  if s.frequency = "daily" then some (s.scheduled_time + 86400)
  else if s.frequency = "weekly" then some (s.scheduled_time + 7 * 86400)
  else if s.frequency = "monthly" then some (s.scheduled_time + 30 * 86400)
  else s.next_send

/-- The mutation applied to a schedule after a successful send
(lines 270-282). -/
def update_after_send (now : Nat) (s : NotificationSchedule) : NotificationSchedule :=
  { s with last_sent := some now, next_send := recompute_next_send s }

/-- Ids of the schedules whose quiz reminder reported success this run;
the dispatcher calls `send_quiz_reminder` with `fcm_token=None`
(line 266), so the token argument is literally `none` here.  `dbOk` gives
each schedule's notification-record commit outcome. -/
def sent_ids (firebaseInit : Bool) (dbOk : NotificationSchedule → Bool)
    (now : Nat) (db : NotificationDB) : List Nat :=
  ((get_pending_notifications now db).filter
    (fun p => (send_notification firebaseInit none (dbOk p.1) true).1)).map
    (fun p => p.1.id)

/-- Embeds `NotificationService.process_pending_notifications` (lines 254-285):
fetch the pending pairs, send each a reminder with `fcm_token=None`, and
on success update that schedule's `last_sent`/`next_send` (rows are
addressed by primary key). -/
def process_pending_notifications (firebaseInit : Bool)
    (dbOk : NotificationSchedule → Bool) (now : Nat) (db : NotificationDB) :
    NotificationDB :=
  { db with notification_schedules :=
      db.notification_schedules.map (fun s =>
        if s.id ∈ sent_ids firebaseInit dbOk now db then update_after_send now s
        else s) }

theorem mem_due_pairs {now : Nat} {db : NotificationDB}
    {s : NotificationSchedule} {u : User} :
    (s, u) ∈ due_pairs now db ↔
      s ∈ db.notification_schedules ∧ u ∈ db.users ∧
        duePredicate now s u = true := by
  simp only [due_pairs, List.mem_flatMap, List.mem_map, List.mem_filter,
    Prod.mk.injEq]
  constructor
  · rintro ⟨s', hs', u', ⟨hu', hp⟩, rfl, rfl⟩
    exact ⟨hs', hu', hp⟩
  · rintro ⟨hs, hu, hp⟩
    exact ⟨s, hs, u, ⟨hu, hp⟩, rfl, rfl⟩

theorem mem_get_pending {now : Nat} {db : NotificationDB}
    {p : NotificationSchedule × User}
    (h : p ∈ get_pending_notifications now db) :
    p ∈ due_pairs now db ∧
      completed_today (dayStart now) p.2.id db.daily_quiz_schedules = [] := by
  unfold get_pending_notifications at h
  split at h
  · exact absurd h (List.not_mem_nil p)
  · have h' := List.mem_filter.mp h
    exact ⟨h'.1, List.isEmpty_iff.mp (by simpa using h'.2)⟩

theorem mem_get_pending_intro {now : Nat} {db : NotificationDB}
    {p : NotificationSchedule × User}
    (hno2 : ∀ q ∈ due_pairs now db,
      (completed_today (dayStart now) q.2.id db.daily_quiz_schedules).length ≤ 1)
    (hdue : p ∈ due_pairs now db)
    (hempty : completed_today (dayStart now) p.2.id db.daily_quiz_schedules = []) :
    p ∈ get_pending_notifications now db := by
  unfold get_pending_notifications
  split
  · rename_i habort
    rcases List.any_eq_true.mp habort with ⟨q, hq, h2⟩
    have := hno2 q hq
    simp at h2
    omega
  · exact List.mem_filter.mpr ⟨hdue, by simp [hempty]⟩

theorem sent_ids_mem {fb : Bool} {dbOk : NotificationSchedule → Bool}
    {now : Nat} {db : NotificationDB} {i : Nat} :
    i ∈ sent_ids fb dbOk now db ↔
      ∃ p ∈ get_pending_notifications now db,
        (send_notification fb none (dbOk p.1) true).1 = true ∧ p.1.id = i := by
  simp only [sent_ids, List.mem_map, List.mem_filter]
  constructor
  · rintro ⟨p, ⟨hp, hs⟩, rfl⟩
    exact ⟨p, hp, hs, rfl⟩
  · rintro ⟨p, hp, hs, rfl⟩
    exact ⟨p, ⟨hp, hs⟩, rfl⟩

/-- A schedule whose pair was selected and whose send succeeded appears
updated in the post-run store. -/
theorem sent_schedule_updated {fb : Bool} {dbOk : NotificationSchedule → Bool}
    {now : Nat} {db : NotificationDB} {s : NotificationSchedule} {u : User}
    (hp : (s, u) ∈ get_pending_notifications now db)
    (hsucc : (send_notification fb none (dbOk s) true).1 = true) :
    update_after_send now s ∈
      (process_pending_notifications fb dbOk now db).notification_schedules := by
  have hs : s ∈ db.notification_schedules :=
    (mem_due_pairs.mp (mem_get_pending hp).1).1
  have hid : s.id ∈ sent_ids fb dbOk now db :=
    sent_ids_mem.mpr ⟨(s, u), hp, hsucc, rfl⟩
  exact List.mem_map.mpr ⟨s, hs, if_pos hid⟩

/-- With unique schedule ids, a schedule whose id was not sent is carried
through a run unchanged. -/
theorem unsent_schedule_unchanged {fb : Bool} {dbOk : NotificationSchedule → Bool}
    {now : Nat} {db : NotificationDB} {s : NotificationSchedule}
    (hs : s ∈ db.notification_schedules)
    (hnot : s.id ∉ sent_ids fb dbOk now db) :
    s ∈ (process_pending_notifications fb dbOk now db).notification_schedules :=
  List.mem_map.mpr ⟨s, hs, if_neg hnot⟩

/-- Schedules with equal ids in a store with `Nodup` ids are the same row. -/
theorem schedule_eq_of_id_eq {db : NotificationDB}
    (hnodup : (db.notification_schedules.map (·.id)).Nodup)
    {s₁ s₂ : NotificationSchedule} (h₁ : s₁ ∈ db.notification_schedules)
    (h₂ : s₂ ∈ db.notification_schedules) (h : s₁.id = s₂.id) : s₁ = s₂ :=
  List.inj_on_of_nodup_map hnodup h₁ h₂ h

/-- Users with equal ids in a store with `Nodup` ids are the same row. -/
theorem user_eq_of_id_eq {db : NotificationDB}
    (hnodup : (db.users.map (·.id)).Nodup)
    {u₁ u₂ : User} (h₁ : u₁ ∈ db.users) (h₂ : u₂ ∈ db.users)
    (h : u₁.id = u₂.id) : u₁ = u₂ :=
  List.inj_on_of_nodup_map hnodup h₁ h₂ h

/-- C4: after a successful dispatch of a due (schedule, user) pair
(Firebase up, record commit succeeding — the dispatcher's tokenless send
then reports success), the run stores the schedule with
`last_sent = now` and `next_send` recomputed from `scheduled_time = T` as
exactly `T + 24h` for `daily`, `T + 7d` for `weekly` and `T + 30d` for
`monthly` — a fixed 30-day offset with no calendar-month adjustment. -/
theorem dispatch_recompute_offsets
    (fb : Bool) (dbok : NotificationSchedule → Bool) (now : Nat)
    (db : NotificationDB) (s : NotificationSchedule) (u : User)
    (hp : (s, u) ∈ get_pending_notifications now db)
    (hfb : fb = true) (hdb : dbok s = true) :
    update_after_send now s ∈
      (process_pending_notifications fb dbok now db).notification_schedules ∧
    (update_after_send now s).last_sent = some now ∧
    (s.frequency = "daily" →
      (update_after_send now s).next_send = some (s.scheduled_time + 86400)) ∧
    (s.frequency = "weekly" →
      (update_after_send now s).next_send = some (s.scheduled_time + 7 * 86400)) ∧
    (s.frequency = "monthly" →
      (update_after_send now s).next_send = some (s.scheduled_time + 30 * 86400)) := by
  refine ⟨?_, rfl, ?_, ?_, ?_⟩
  · exact sent_schedule_updated hp (by simp [send_notification, hfb, hdb])
  · intro h; simp [update_after_send, recompute_next_send, h]
  · intro h; simp [update_after_send, recompute_next_send, h]
  · intro h; simp [update_after_send, recompute_next_send, h]

/-- A user row eligible for reminders. -/
def reminderUser : User := { id := 1, is_active := true, notification_enabled := true }

/-- A due daily schedule: `scheduled_time = 0`, `next_send = some 0`. -/
def dailySched : NotificationSchedule :=
  { id := 1, user_id := 1, scheduled_time := 0, frequency := "daily"
    is_active := true, last_sent := none, next_send := some 0
    title_template := "Daily Quiz Reminder"
    message_template := "Time to complete your daily quiz" }

/-- One due daily schedule, its user, no completed quiz today. -/
def reminderDb : NotificationDB :=
  { notification_schedules := [dailySched], users := [reminderUser]
    daily_quiz_schedules := [] }

theorem dispatch_recompute_offsets_witness :
    dailySched.frequency = "daily" ∧
    update_after_send 100 dailySched ∈
      (process_pending_notifications true (fun _ => true) 100
        reminderDb).notification_schedules ∧
    (update_after_send 100 dailySched).last_sent = some 100 ∧
    (update_after_send 100 dailySched).next_send =
      some (dailySched.scheduled_time + 86400) :=
  have h := dispatch_recompute_offsets true (fun _ => true) 100 reminderDb
    dailySched reminderUser (by decide) rfl rfl
  ⟨rfl, h.1, h.2.1, h.2.2.1 rfl⟩

/-- C9: the dispatcher's send path is invoked with `fcm_token = None`
(literally `none` in `process_pending_notifications` /
`send_quiz_reminder`, line 266); with the Firebase app initialized (and
the record insert committing) the tokenless `send_notification` returns
`True` without attempting any FCM delivery, so every selected
(schedule, user) pair counts as a successful send and its schedule's
`last_sent`/`next_send` are updated even though no push message was
transmitted. -/
theorem none_token_send_updates_all
    (now : Nat) (db : NotificationDB) (s : NotificationSchedule) (u : User)
    (hp : (s, u) ∈ get_pending_notifications now db) :
    send_notification true none true true = (true, false) ∧
    update_after_send now s ∈
      (process_pending_notifications true (fun _ => true) now
        db).notification_schedules ∧
    (update_after_send now s).last_sent = some now :=
  ⟨rfl, sent_schedule_updated hp rfl, rfl⟩

theorem none_token_send_updates_all_witness :
    send_notification true none true true = (true, false) ∧
    update_after_send 100 dailySched ∈
      (process_pending_notifications true (fun _ => true) 100
        reminderDb).notification_schedules ∧
    (update_after_send 100 dailySched).last_sent = some 100 :=
  none_token_send_updates_all 100 reminderDb dailySched reminderUser (by decide)

/-- A daily schedule whose `next_send` stands at day 5 (432000 s) — for
instance set by an operator to snooze it — while `scheduled_time` is the
day-0 anchor. -/
def snoozedSched : NotificationSchedule :=
  { id := 1, user_id := 1, scheduled_time := 0, frequency := "daily"
    is_active := true, last_sent := none, next_send := some 432000
    title_template := "Daily Quiz Reminder"
    message_template := "Time to complete your daily quiz" }

def snoozedDb : NotificationDB :=
  { notification_schedules := [snoozedSched], users := [reminderUser]
    daily_quiz_schedules := [] }

/-- C3 counterexample: a dispatcher run at day 6 (518400 s) finds the
snoozed schedule due (432000 ≤ 518400), sends successfully, and
recomputes `next_send` from the fixed `scheduled_time` — moving it BACK
from 432000 to 0 + 86400 = 86400.  `next_send` is not monotonically
non-decreasing across dispatcher runs. -/
theorem next_send_monotonic_counterexample :
    snoozedSched.next_send = some 432000 ∧
    (process_pending_notifications true (fun _ => true) 518400
        snoozedDb).notification_schedules =
      [{ snoozedSched with last_sent := some 518400, next_send := some 86400 }] ∧
    (86400 : Nat) < 432000 :=
  ⟨rfl, rfl, by decide⟩

/-- C3 amended: across dispatcher runs each schedule's row keeps its id
and is either untouched or — only after its own successful send —
rewritten by `update_after_send`, which sets `next_send` to
`scheduled_time` plus the frequency period regardless of the previous
value; hence `next_send` never decreases provided its prior value does
not exceed that recomputed target (as holds for every value the
dispatcher itself writes), while a prior value above the target (set
outside the dispatcher) can be moved backwards. -/
theorem next_send_recompute_behavior
    (fb : Bool) (dbok : NotificationSchedule → Bool) (now : Nat)
    (db : NotificationDB) (s : NotificationSchedule)
    (hs : s ∈ db.notification_schedules)
    (hnodup : (db.notification_schedules.map (·.id)).Nodup) :
    ∃ s' ∈ (process_pending_notifications fb dbok now db).notification_schedules,
      s'.id = s.id ∧
      (s' = s ∨
        (s' = update_after_send now s ∧
          (send_notification fb none (dbok s) true).1 = true ∧
          ∃ u, (s, u) ∈ get_pending_notifications now db)) ∧
      (∀ v w, s.next_send = some v → recompute_next_send s = some w → v ≤ w →
        ∃ w', s'.next_send = some w' ∧ v ≤ w') := by
  by_cases hid : s.id ∈ sent_ids fb dbok now db
  · rcases sent_ids_mem.mp hid with ⟨⟨s₁, u⟩, hp, hsucc, hpid⟩
    have hs₁ : s₁ ∈ db.notification_schedules :=
      (mem_due_pairs.mp (mem_get_pending hp).1).1
    have heq : s₁ = s := schedule_eq_of_id_eq hnodup hs₁ hs hpid
    subst heq
    refine ⟨update_after_send now s₁, List.mem_map.mpr ⟨s₁, hs, if_pos hid⟩,
      rfl, Or.inr ⟨rfl, hsucc, u, hp⟩, ?_⟩
    intro v w _ hw hle
    exact ⟨w, by simp [update_after_send, hw], hle⟩
  · refine ⟨s, unsent_schedule_unchanged hs hid, rfl, Or.inl rfl, ?_⟩
    intro v _ hv _ _
    exact ⟨v, hv, le_refl v⟩

theorem next_send_recompute_behavior_witness :
    ∃ s' ∈ (process_pending_notifications true (fun _ => true) 100
        reminderDb).notification_schedules,
      s'.id = dailySched.id ∧
      (s' = dailySched ∨
        (s' = update_after_send 100 dailySched ∧
          (send_notification true none true true).1 = true ∧
          ∃ u, (dailySched, u) ∈ get_pending_notifications 100 reminderDb)) ∧
      (∀ v w, dailySched.next_send = some v →
        recompute_next_send dailySched = some w → v ≤ w →
        ∃ w', s'.next_send = some w' ∧ v ≤ w') :=
  next_send_recompute_behavior true (fun _ => true) 100 reminderDb dailySched
    (by decide) (by decide)

theorem duePredicate_eq {now : Nat} {s : NotificationSchedule} {u : User} :
    duePredicate now s u = true ↔
      u.id = s.user_id ∧ s.is_active = true ∧
        (∃ t, s.next_send = some t ∧ t ≤ now) ∧
        u.notification_enabled = true ∧ u.is_active = true := by
  cases hns : s.next_send <;>
    simp [duePredicate, hns, Bool.and_eq_true, and_assoc]

/-- C7: a due (schedule, user) pair is left untouched by a dispatcher run
in two cases (stores addressing rows by unique ids): (a) when the user
has already completed today's quiz, the pair is not selected, nothing is
sent and the schedule's row — `last_sent` and `next_send` included — is
carried through unchanged; (b) when the pair is selected but the send
fails, the row is likewise carried through unchanged, and at any later
instant `now'` of the same day with `next_send ≤ now'` (the store's users
having at most one completed row each, so the selection query does not
abort) the same pair is selected as due again. -/
theorem due_schedule_frame
    (fb : Bool) (dbok : NotificationSchedule → Bool) (now now' : Nat)
    (db : NotificationDB) (s : NotificationSchedule) (u : User)
    (hnodup : (db.notification_schedules.map (·.id)).Nodup)
    (hunodup : (db.users.map (·.id)).Nodup) :
    ((s, u) ∈ due_pairs now db →
      completed_today (dayStart now) u.id db.daily_quiz_schedules ≠ [] →
      s ∈ (process_pending_notifications fb dbok now db).notification_schedules) ∧
    ((s, u) ∈ get_pending_notifications now db →
      (send_notification fb none (dbok s) true).1 = false →
      s ∈ (process_pending_notifications fb dbok now db).notification_schedules ∧
      (∀ v, s.next_send = some v → v ≤ now' → now' / 86400 = now / 86400 →
        (∀ u' ∈ db.users,
          (completed_today (dayStart now) u'.id db.daily_quiz_schedules).length ≤ 1) →
        (s, u) ∈ get_pending_notifications now'
          (process_pending_notifications fb dbok now db))) := by
  constructor
  · intro hdue hcomp
    apply unsent_schedule_unchanged (mem_due_pairs.mp hdue).1
    intro hid
    rcases sent_ids_mem.mp hid with ⟨⟨s₁, u₁⟩, hp, _, hpid⟩
    have hmm := mem_due_pairs.mp (mem_get_pending hp).1
    have hs₁ : s₁ = s :=
      schedule_eq_of_id_eq hnodup hmm.1 (mem_due_pairs.mp hdue).1 hpid
    subst hs₁
    have hu₁ : u₁.id = s₁.user_id := (duePredicate_eq.mp hmm.2.2).1
    have hu : u.id = s₁.user_id :=
      (duePredicate_eq.mp (mem_due_pairs.mp hdue).2.2).1
    have huu : u₁ = u :=
      user_eq_of_id_eq hunodup hmm.2.1 (mem_due_pairs.mp hdue).2.1
        (hu₁.trans hu.symm)
    subst huu
    exact hcomp (mem_get_pending hp).2
  · intro hp hfail
    have hsmem := (mem_due_pairs.mp (mem_get_pending hp).1).1
    have hnot : s.id ∉ sent_ids fb dbok now db := by
      intro hid
      rcases sent_ids_mem.mp hid with ⟨⟨s₁, u₁⟩, hp₁, hsucc, hpid⟩
      have hmm := mem_due_pairs.mp (mem_get_pending hp₁).1
      have hs₁ : s₁ = s := schedule_eq_of_id_eq hnodup hmm.1 hsmem hpid
      rw [hs₁] at hsucc
      rw [hfail] at hsucc
      exact Bool.noConfusion hsucc
    refine ⟨unsent_schedule_unchanged hsmem hnot, ?_⟩
    intro v hv hle hday hno2
    have hdayeq : dayStart now' = dayStart now := by
      unfold dayStart; rw [hday]
    have hdue := mem_due_pairs.mp (mem_get_pending hp).1
    apply mem_get_pending_intro
    · intro q hq
      have hqu : q.2 ∈ db.users := (mem_due_pairs.mp hq).2.1
      show (completed_today (dayStart now') q.2.id
        db.daily_quiz_schedules).length ≤ 1
      rw [hdayeq]
      exact hno2 q.2 hqu
    · apply mem_due_pairs.mpr
      refine ⟨unsent_schedule_unchanged hsmem hnot, hdue.2.1, ?_⟩
      apply duePredicate_eq.mpr
      have hparts := duePredicate_eq.mp hdue.2.2
      exact ⟨hparts.1, hparts.2.1, ⟨v, hv, hle⟩, hparts.2.2.2⟩
    · show completed_today (dayStart now') u.id db.daily_quiz_schedules = []
      rw [hdayeq]
      exact (mem_get_pending hp).2

/-- A completed quiz row for `reminderUser`, dated within today. -/
def completedQuiz : DailyQuizSchedule :=
  { user_id := 1, scheduled_date := 100, topics := [7]
    questions_per_topic := 1, is_completed := true }

/-- Like `reminderDb`, but the user has completed today's quiz. -/
def completedDb : NotificationDB :=
  { notification_schedules := [dailySched], users := [reminderUser]
    daily_quiz_schedules := [completedQuiz] }

theorem due_schedule_frame_witness :
    dailySched ∈ (process_pending_notifications true (fun _ => true) 100
      completedDb).notification_schedules ∧
    dailySched ∈ (process_pending_notifications false (fun _ => true) 100
      reminderDb).notification_schedules ∧
    (dailySched, reminderUser) ∈ get_pending_notifications 200
      (process_pending_notifications false (fun _ => true) 100 reminderDb) :=
  have ha := (due_schedule_frame true (fun _ => true) 100 100 completedDb
    dailySched reminderUser (by decide) (by decide)).1 (by decide) (by decide)
  have hb := (due_schedule_frame false (fun _ => true) 100 200 reminderDb
    dailySched reminderUser (by decide) (by decide)).2 (by decide) rfl
  ⟨ha, hb.1, hb.2 0 rfl (by decide) (by decide)
    (fun u' hu' => by simp [reminderDb] at hu'; subst hu'; decide)⟩

theorem extract_questions_bounded_nodup_long_witness :
    (extract_questions_from_text
      ["  What is a deadlock?  ".toList, "short?".toList]).length ≤ 5 ∧
    (extract_questions_from_text
      ["  What is a deadlock?  ".toList, "short?".toList]).Nodup ∧
    (10 < "What is a deadlock?".toList.length ∧
      ∃ m ∈ ["  What is a deadlock?  ".toList, "short?".toList],
        "What is a deadlock?".toList = strip m) :=
  have h := extract_questions_bounded_nodup_long
    ["  What is a deadlock?  ".toList, "short?".toList]
  ⟨h.1, h.2.1, h.2.2 "What is a deadlock?".toList (by decide)⟩

end InterviewPrep
